import Mathlib

/-!
Verification of the `snake-arena` match execution orchestrator.

This file gives a shallow embedding of the two core pieces of the CLI:

* the local match runner in `src/lib/local-runner.js` (`startServer`,
  `runLocalGame`, `parseResult`), and
* the asynchronous submission poll loop in `src/commands/submit.js`
  (`submit`, phase 1 submission handling and the phase 2 polling loop),
  together with the status-query fallback of `src/lib/api.js` (`getStatus`).

JavaScript dynamic values produced by `JSON.parse` are embedded as an
inductive `JsVal`; per-line JSON parsing is abstracted as `Option JsVal`
(`none` = the line is not valid JSON, so `JSON.parse` on it throws).
Promises/timers are embedded by making each asynchronous step's outcome an
explicit parameter (which contestant server became ready, what the engine
process did, what each status poll returned), and the orchestration code is
translated branch by branch from the source.
-/

/-- JavaScript values as produced by `JSON.parse`: strings, numbers,
booleans, objects and `null`.  Object fields are kept as an association
list; `JSON.parse` deduplicates repeated keys (last occurrence wins), so
embedded objects are assumed to carry each key at most once. -/
inductive JsVal where
  | str (s : String)
  | num (n : Int)
  | bool (b : Bool)
  | obj (fields : List (String × JsVal))
  | null

/-- JavaScript truthiness of a value: `""`, `0`, `false` and `null` are
falsy, every other string/number/boolean/object is truthy. -/
def JsVal.truthy : JsVal → Bool
  | .str s => s != ""
  | .num n => n != 0
  | .bool b => b
  | .obj _ => true
  | .null => false

/-- Whether the value is JavaScript `null`. -/
def JsVal.isNull : JsVal → Bool
  | .null => true
  | _ => false

/-- Strict equality `v === lit` of a value against a string literal, as used
by `winnerName === "you"` in `parseResult` (local-runner.js line 143). -/
def JsVal.eqStr : JsVal → String → Bool
  | .str t, s => t == s
  | _, _ => false

/-- Property access `v[k]`.  On an object it yields the field (or `none`
for JavaScript `undefined` when the key is absent); on `null` it throws a
`TypeError`; on any other primitive it yields `undefined`. -/
def jsGet (v : JsVal) (k : String) : Except String (Option JsVal) :=
  match v with
  | .null => .error "TypeError: cannot read properties of null"
  | .obj fields => .ok ((fields.find? (fun p => p.1 == k)).map Prod.snd)
  | _ => .ok none

/-- The JavaScript defaulting idiom `x || d`: the accessed field if it is
present and truthy, otherwise the default `d`. -/
def jsOr (x : Option JsVal) (d : JsVal) : JsVal :=
  match x with
  | some v => if v.truthy then v else d
  | none => d

/-- The object returned by `parseResult` (local-runner.js lines 121-148).
The two lenient early returns carry `winner`/`turns`/`error` only
(`winnerName`/`isDraw` are `none` = absent); the main return carries
`winner`/`turns`/`winnerName`/`isDraw` and no `error`.  `turns` keeps the
dynamic type `JsVal` because `lastTurn.turn || 0` can propagate a
non-numeric truthy field unchanged. -/
structure ParsedResult where
  winner : String
  turns : JsVal
  winnerName : Option JsVal
  isDraw : Option JsVal
  error : Option String

/-- Message of the exception propagated out of `parseResult` when
`JSON.parse(lines[lines.length - 1])` (local-runner.js line 131) throws:
that call is not wrapped in any `try`. -/
def jsonThrowMsg : String := "JSON.parse threw on the summary line"

/-- The turn-count computation of `parseResult` (local-runner.js lines
135-140): `JSON.parse` the second-to-last line and read its `turn` field,
with the whole computation wrapped in `try { .. } catch {}` so that a parse
failure (or a throwing property access) leaves the count at `0`. -/
def turnsOf (lines : List (Option JsVal)) : JsVal :=
  match lines[lines.length - 2]? with
  | some (some v) =>
    match jsGet v "turn" with
    | .ok f => jsOr f (.num 0)
    | .error _ => .num 0
  | _ => .num 0

/-- Shallow embedding of `parseResult` (local-runner.js lines 121-148).

`outputExists` is `fs.existsSync(outputPath)`; `lines` is the result of
`readFileSync(..).trim().split("\n")` with each line replaced by its JSON
parse (`none` when `JSON.parse` on that line throws).  The summary line is
parsed outside any `try`, so a malformed final line (or a `null` summary,
whose property access throws) escapes as `Except.error`; the
second-to-last line is parsed inside `try { .. } catch {}`, so any failure
there just leaves `totalTurns = 0`. -/
def parseResult (outputExists : Bool) (lines : List (Option JsVal)) :
    Except String ParsedResult :=
  if !outputExists then
    .ok ⟨"draw", .num 0, none, none, some "No output"⟩
  else if lines.length < 2 then
    .ok ⟨"draw", .num 0, none, none, some "Empty output"⟩
  else
    match lines.getLast? with
    | none => .error jsonThrowMsg
    | some none => .error jsonThrowMsg
    | some (some summary) =>
      match jsGet summary "winnerName" with
      | .error e => .error e
      | .ok wn =>
        match jsGet summary "isDraw" with
        | .error e => .error e
        | .ok idr =>
          let winnerName := jsOr wn (.str "")
          let isDraw := jsOr idr (.bool false)
          .ok ⟨if isDraw.truthy then "draw"
               else if winnerName.eqStr "you" then "you" else "opponent",
            turnsOf lines, some winnerName, some isDraw, none⟩

/-- Helper: property access never throws on a non-`null` value. -/
theorem jsGet_ok (v : JsVal) (k : String) (h : v.isNull = false) :
    ∃ x, jsGet v k = .ok x := by
  cases v <;> simp_all [jsGet, JsVal.isNull]

/-- The trace named by claim C2: a final summary line
`{winner: "A", isDraw: false}` preceded by `{turn: 42}`. -/
def traceWinnerA : List (Option JsVal) :=
  [some (.obj [("turn", .num 42)]),
   some (.obj [("winner", .str "A"), ("isDraw", .bool false)])]

/-- The same trace with the field names and winner label the source
actually reads: `winnerName` (local-runner.js line 132) and the contestant
name `"you"` (lines 87 and 143). -/
def traceWinnerYou : List (Option JsVal) :=
  [some (.obj [("turn", .num 42)]),
   some (.obj [("winnerName", .str "you"), ("isDraw", .bool false)])]

/-- Claim C2, counterexample: on the trace literally named by the claim, whose
summary is `{winner: "A", isDraw: false}`, `parseResult` reads the absent
field `winnerName`, defaults it to `""`, and since `"" === "you"` fails it
reports the opponent as winner (a Loss), not a Win — though the turn count
42 is picked up.  So the claimed result `{outcome: Win, turnCount: 42}` is
not produced. -/
theorem parseResult_winnerA_not_win :
    parseResult true traceWinnerA =
      .ok ⟨"opponent", .num 42, some (.str ""), some (.bool false), none⟩ ∧
    (parseResult true traceWinnerA).toOption.map ParsedResult.winner ≠
      some "you" := by
  exact ⟨rfl, by decide⟩

/-- Claim C2, amended: a trace whose final summary line is
`{winnerName: "you", isDraw: false}` and whose second-to-last line is
`{turn: 42}` parses to a Win for the user (`winner = "you"`) with 42
turns.  (`winnerName`/`"you"` are the field name and winner label the
source actually uses; the claim's `{winner: "A"}` names a field
`parseResult` never reads.) -/
theorem parseResult_roundtrip_win :
    parseResult true traceWinnerYou =
      .ok ⟨"you", .num 42, some (.str "you"), some (.bool false), none⟩ := by
  rfl

/-- Claim C6: whenever the trace file is missing or holds fewer than two lines,
`parseResult` returns (never throws) a draw with zero turns and a
non-empty diagnostic (`"No output"` or `"Empty output"`). -/
theorem parseResult_short_trace (outputExists : Bool)
    (lines : List (Option JsVal))
    (h : outputExists = false ∨ lines.length < 2) :
    ∃ r, parseResult outputExists lines = .ok r ∧
      r.winner = "draw" ∧ r.turns = .num 0 ∧
      ∃ d, r.error = some d ∧ d ≠ "" := by
  rcases h with h | h
  · subst h
    exact ⟨_, rfl, rfl, rfl, "No output", rfl, by simp⟩
  · cases outputExists
    · exact ⟨_, rfl, rfl, rfl, "No output", rfl, by simp⟩
    · refine ⟨⟨"draw", .num 0, none, none, some "Empty output"⟩, ?_, rfl, rfl,
        "Empty output", rfl, by simp⟩
      simp [parseResult, h]

/-- Witness for claim C6: the empty trace (one empty line after `split`). -/
theorem parseResult_short_trace_witness :
    ∃ r, parseResult true [some (.obj [])] = .ok r ∧
      r.winner = "draw" ∧ r.turns = .num 0 ∧
      ∃ d, r.error = some d ∧ d ≠ "" :=
  parseResult_short_trace true [some (.obj [])] (Or.inr (by decide))

/-- The trace used against claim C7: two lines whose final (summary) line
is not valid JSON. -/
def traceBadSummary : List (Option JsVal) :=
  [some (.obj [("turn", .num 41)]), none]

/-- Claim C7, counterexample: a two-line trace whose final line fails to parse
as JSON makes `parseResult` throw — `JSON.parse(lines[lines.length - 1])`
is outside every `try` — contradicting the claim that any unparsable
record leaves `parseResult` returning a summary-derived result without
throwing. -/
theorem parseResult_bad_summary_throws :
    parseResult true traceBadSummary = .error jsonThrowMsg := by
  rfl

/-- Claim C7, amended: for every trace with at least two lines whose *final*
line does parse as JSON (to a non-`null` value), a second-to-last record
that fails to parse as JSON is ignored for turn-count purposes (`turns`
falls back to `0`) and does not abort parsing: `parseResult` returns a
result derived from the summary without throwing.  Only a malformed final
summary line itself makes `parseResult` throw. -/
theorem parseResult_bad_record_tolerated (lines : List (Option JsVal))
    (v : JsVal) (h2 : 2 ≤ lines.length)
    (hlast : lines.getLast? = some (some v)) (hv : v.isNull = false) :
    (∃ r, parseResult true lines = .ok r) ∧
    (lines[lines.length - 2]? = some none →
      ∃ r, parseResult true lines = .ok r ∧ r.turns = .num 0) := by
  obtain ⟨x1, hx1⟩ := jsGet_ok v "winnerName" hv
  obtain ⟨x2, hx2⟩ := jsGet_ok v "isDraw" hv
  have hlen : ¬ lines.length < 2 := by omega
  have hres : parseResult true lines =
      .ok ⟨if (jsOr x2 (JsVal.bool false)).truthy then "draw"
           else if (jsOr x1 (JsVal.str "")).eqStr "you" then "you"
           else "opponent",
        turnsOf lines, some (jsOr x1 (JsVal.str "")),
        some (jsOr x2 (JsVal.bool false)), none⟩ := by
    simp [parseResult, hlen, hlast, hx1, hx2]
  refine ⟨⟨_, hres⟩, fun hmid => ⟨_, hres, ?_⟩⟩
  simp [turnsOf, hmid]

/-- A trace whose first line is unparsable but whose summary line is
well-formed. -/
def traceBadFirstLine : List (Option JsVal) :=
  [none, some (.obj [("winnerName", .str "you")])]

/-- Witness for claim C7: an unparsable first line followed by a well-formed summary
parses without throwing and with zero turns. -/
theorem parseResult_bad_record_tolerated_witness :
    (∃ r, parseResult true traceBadFirstLine = .ok r) ∧
    (traceBadFirstLine[traceBadFirstLine.length - 2]? = some none →
      ∃ r, parseResult true traceBadFirstLine = .ok r ∧ r.turns = .num 0) :=
  parseResult_bad_record_tolerated traceBadFirstLine
    (JsVal.obj [("winnerName", JsVal.str "you")]) (by decide) rfl rfl

/-- A snapshot of the remote job as read from one successful status query
(`submit.js`, `job = statusResponse.data`).  `error` is `job.error`,
`status` is `job.status`, `matchList` is `job.matches` (renamed: `matches`
is a reserved word in Lean), each `none` when the field is absent. -/
structure Job (M : Type) where
  error : Option String := none
  status : Option String := none
  matchList : Option (List M) := none
  deriving DecidableEq

/-- What one iteration of the poll loop observes: either `getStatus`
threw (network/backend error, the `catch` branch of submit.js lines
296-304) or it returned a job snapshot. -/
inductive Resp (M : Type) where
  | queryError
  | snapshot (job : Job M)
  deriving DecidableEq

/-- The loop-local state of the polling phase (submit.js lines 285-287):
the iteration counter `polls`, the count `lastMatchCount` of match entries
already printed, and — for specification purposes — the ordered log
`emitted` of every match entry printed so far. -/
structure PollState (M : Type) where
  polls : Nat
  lastMatchCount : Nat
  emitted : List M
  deriving DecidableEq

/-- How a run of the poll loop ends.  `backendTimeout` is the
`polls >= maxPolls` exit inside the `catch` (line 297), `jobNeverStarted`
the "Backend never started processing this job" exit (line 310), `failed`
the `job.status === "failed"` exit (line 317), `complete` the
`job.status === "complete"` break (line 336), `pollTimeout` the
"Timed out waiting for results after 5 minutes" exit (line 344), and
`outOfScript` means the scripted response list ran out while the loop
still wanted to poll. -/
inductive Outcome where
  | backendTimeout
  | jobNeverStarted
  | failed (msg : Option String)
  | complete
  | pollTimeout
  | outOfScript
  deriving DecidableEq

/-- The iteration ceiling: `const maxPolls = 100; // 100 × 3s = 5 minutes`
(submit.js line 286). -/
def maxPolls : Nat := 100

/-- The incremental match printing of submit.js lines 324-334: emit
`matches.slice(lastMatchCount)` in order and advance `lastMatchCount` by
one per emitted entry. -/
def procMatches {M : Type} (s : PollState M) (ms : List M) : PollState M :=
  { s with emitted := s.emitted ++ ms.drop s.lastMatchCount,
           lastMatchCount := s.lastMatchCount + (ms.drop s.lastMatchCount).length }

/-- One iteration of the poll loop body (submit.js lines 288-355), after
the 3-second sleep: bump `polls`, then branch exactly as the source does —
query failure (tolerated until the ceiling), `job.error === "Job not
found"` (tolerated until `polls >= 20`), `job.status === "failed"`,
incremental match emission, `job.status === "complete"`, ceiling check,
else keep looping.  Returns `(some outcome, s)` when the loop resolves
and `(none, s)` when it continues with state `s`. -/
def pollStep {M : Type} (s0 : PollState M) (r : Resp M) :
    Option Outcome × PollState M :=
  let s := { s0 with polls := s0.polls + 1 }
  match r with
  | .queryError => if maxPolls ≤ s.polls then (some .backendTimeout, s) else (none, s)
  | .snapshot job =>
    if job.error = some "Job not found" then
      if 20 ≤ s.polls then (some .jobNeverStarted, s) else (none, s)
    else if job.status = some "failed" then (some (.failed job.error), s)
    else
      let s1 := procMatches s (job.matchList.getD [])
      if job.status = some "complete" then (some .complete, s1)
      else if maxPolls ≤ s1.polls then (some .pollTimeout, s1)
      else (none, s1)

/-- Run the poll loop against a script of poll responses.  Returns the
outcome, the final loop state, and the number of poll iterations
consumed. -/
def runPoll {M : Type} : List (Resp M) → PollState M → Outcome × PollState M × Nat
  | [], s => (.outOfScript, s, 0)
  | r :: rs, s =>
    match pollStep s r with
    | (some o, s1) => (o, s1, 1)
    | (none, s1) =>
      let t := runPoll rs s1
      (t.1, t.2.1, t.2.2 + 1)

/-- The state of the loop when polling starts: `lastMatchCount = 0`,
no iterations done, nothing emitted (submit.js lines 285-287). -/
def initPollState {M : Type} : PollState M := ⟨0, 0, []⟩

/-- The job snapshot returned by `getStatus` when no Cloudflare Workers
base URL is configured (api.js line 86): a bare `{status: "completed"}`. -/
def statusNoCF {M : Type} : Job M := { status := some "completed" }

/-- Whether a poll response reports `job.error === "Job not found"`
(submit.js line 307). -/
def isNotFound {M : Type} : Resp M → Bool
  | .queryError => false
  | .snapshot j => j.error = some "Job not found"

/-- Helper: emitting matches does not touch the iteration counter. -/
theorem procMatches_polls {M : Type} (s : PollState M) (ms : List M) :
    (procMatches s ms).polls = s.polls := rfl

/-- Helper: every branch of `pollStep` increments the iteration counter by
exactly one. -/
theorem pollStep_polls {M : Type} (s : PollState M) (r : Resp M) :
    ((pollStep s r).2).polls = s.polls + 1 := by
  cases r with
  | queryError => simp only [pollStep]; split <;> rfl
  | snapshot j =>
    simp only [pollStep]
    split
    · split <;> rfl
    · split
      · rfl
      · split
        · rfl
        · split <;> rfl

/-- Helper: the loop only continues while strictly below the iteration
ceiling. -/
theorem pollStep_cont_lt {M : Type} (s : PollState M) (r : Resp M)
    (h : (pollStep s r).1 = none) : s.polls + 1 < maxPolls := by
  cases r with
  | queryError =>
    simp only [pollStep] at h
    split at h
    · exact absurd h (by simp)
    · simp only [maxPolls] at *; omega
  | snapshot j =>
    simp only [pollStep] at h
    split at h
    · split at h
      · exact absurd h (by simp)
      · simp only [maxPolls] at *; omega
    · split at h
      · exact absurd h (by simp)
      · split at h
        · exact absurd h (by simp)
        · split at h
          · exact absurd h (by simp)
          · simp only [maxPolls, procMatches_polls] at *; omega

/-- Helper: the two timeout exits fire only at or above the ceiling. -/
theorem pollStep_timeout_ge {M : Type} (s : PollState M) (r : Resp M)
    (h : (pollStep s r).1 = some .pollTimeout ∨
      (pollStep s r).1 = some .backendTimeout) : maxPolls ≤ s.polls + 1 := by
  cases r with
  | queryError =>
    simp only [pollStep] at h
    split at h
    · assumption
    · rcases h with h | h <;> exact absurd h (by simp)
  | snapshot j =>
    simp only [pollStep] at h
    split at h
    · split at h <;> rcases h with h | h <;> exact absurd h (by simp)
    · split at h
      · rcases h with h | h <;> exact absurd h (by simp)
      · split at h
        · rcases h with h | h <;> exact absurd h (by simp)
        · split at h
          · assumption
          · rcases h with h | h <;> exact absurd h (by simp)

/-- Helper: the final iteration counter equals the starting counter plus
the number of consumed responses. -/
theorem runPoll_polls {M : Type} : ∀ (rs : List (Resp M)) (s : PollState M),
    (runPoll rs s).2.1.polls = s.polls + (runPoll rs s).2.2 := by
  intro rs
  induction rs with
  | nil => intro s; rfl
  | cons r rs ih =>
    intro s
    cases hstep : pollStep s r with
    | mk oo s1 =>
      have hp : s1.polls = s.polls + 1 := by
        have h0 := pollStep_polls s r
        rw [hstep] at h0
        exact h0
      cases oo with
      | some o => simp [runPoll, hstep, hp]
      | none =>
        have := ih s1
        simp [runPoll, hstep, this, hp]
        omega

/-- Helper: starting below the ceiling, the loop consumes at most
`maxPolls - polls` responses. -/
theorem runPoll_consumed_le {M : Type} :
    ∀ (rs : List (Resp M)) (s : PollState M), s.polls < maxPolls →
    (runPoll rs s).2.2 + s.polls ≤ maxPolls := by
  intro rs
  induction rs with
  | nil => intro s h; simp [runPoll]; omega
  | cons r rs ih =>
    intro s h
    cases hstep : pollStep s r with
    | mk oo s1 =>
      cases oo with
      | some o => simp [runPoll, hstep]; omega
      | none =>
        have hlt : s.polls + 1 < maxPolls := by
          have := pollStep_cont_lt s r
          rw [hstep] at this
          exact this rfl
        have hp : s1.polls = s.polls + 1 := by
          have h0 := pollStep_polls s r
          rw [hstep] at h0
          exact h0
        have := ih s1 (by omega)
        simp [runPoll, hstep]
        omega

/-- Helper: with at least `maxPolls - polls` responses available, the loop
never runs out of script. -/
theorem runPoll_resolves {M : Type} :
    ∀ (rs : List (Resp M)) (s : PollState M), s.polls < maxPolls →
    maxPolls ≤ s.polls + rs.length → (runPoll rs s).1 ≠ .outOfScript := by
  intro rs
  induction rs with
  | nil => intro s h1 h2; simp at h2; omega
  | cons r rs ih =>
    intro s h1 h2
    cases hstep : pollStep s r with
    | mk oo s1 =>
      cases oo with
      | some o =>
        simp [runPoll, hstep]
        intro h
        subst h
        -- an exit is never reported as `outOfScript`
        cases r with
        | queryError =>
          simp only [pollStep] at hstep
          split at hstep <;> simp_all
        | snapshot j =>
          simp only [pollStep] at hstep
          split at hstep
          · split at hstep <;> simp_all
          · split at hstep
            · simp_all
            · split at hstep
              · simp_all
              · split at hstep <;> simp_all
      | none =>
        have hlt : s.polls + 1 < maxPolls := by
          have := pollStep_cont_lt s r
          rw [hstep] at this
          exact this rfl
        have hp : s1.polls = s.polls + 1 := by
          have h0 := pollStep_polls s r
          rw [hstep] at h0
          exact h0
        have := ih s1 (by omega) (by simp at h2 ⊢; omega)
        simp [runPoll, hstep]
        exact this

/-- Helper: a timeout outcome is only produced once the counter has
reached the ceiling. -/
theorem runPoll_timeout_at_ceiling {M : Type} :
    ∀ (rs : List (Resp M)) (s : PollState M),
    ((runPoll rs s).1 = .pollTimeout ∨ (runPoll rs s).1 = .backendTimeout) →
    maxPolls ≤ s.polls + (runPoll rs s).2.2 := by
  intro rs
  induction rs with
  | nil => intro s h; simp [runPoll] at h
  | cons r rs ih =>
    intro s h
    cases hstep : pollStep s r with
    | mk oo s1 =>
      cases oo with
      | some o =>
        simp [runPoll, hstep] at h ⊢
        have := pollStep_timeout_ge s r
        rw [hstep] at this
        rcases h with h | h <;> subst h
        · exact this (Or.inl rfl)
        · exact this (Or.inr rfl)
      | none =>
        have hp : s1.polls = s.polls + 1 := by
          have h0 := pollStep_polls s r
          rw [hstep] at h0
          exact h0
        simp [runPoll, hstep] at h ⊢
        have := ih s1 h
        omega

/-- Claim C5, amended: the poll loop performs at most `maxPolls = 100`
iterations — against any response script of length ≥ 100 it resolves
without consuming more than 100 responses — and the two ceiling exits
("Timed out waiting for results", whether from the `catch` branch or the
fall-through check) happen exactly at the 100th iteration.  (The original
claim's "exhausting the ceiling without Complete or Failed always yields
PollTimeout" fails when the 100th poll itself reports "job not found":
the grace check fires first and yields JobNeverStarted, see the
counterexample.) -/
theorem poll_iteration_ceiling {M : Type} (rs : List (Resp M))
    (h : maxPolls ≤ rs.length) :
    (runPoll rs (initPollState : PollState M)).2.2 ≤ maxPolls ∧
    (runPoll rs (initPollState : PollState M)).1 ≠ .outOfScript ∧
    ((runPoll rs (initPollState : PollState M)).1 = .pollTimeout ∨
      (runPoll rs (initPollState : PollState M)).1 = .backendTimeout →
      (runPoll rs (initPollState : PollState M)).2.2 = maxPolls) := by
  have h0 : (initPollState : PollState M).polls = 0 := rfl
  have hlt : (initPollState : PollState M).polls < maxPolls := by
    rw [h0]; simp [maxPolls]
  refine ⟨?_, ?_, ?_⟩
  · have := runPoll_consumed_le rs initPollState hlt
    omega
  · exact runPoll_resolves rs initPollState hlt (by omega)
  · intro ht
    have h1 := runPoll_timeout_at_ceiling rs initPollState ht
    have h2 := runPoll_consumed_le rs initPollState hlt
    omega

/-- Witness script for the ceiling theorem: 100 query errors. -/
def scriptAllErrors : List (Resp Nat) := List.replicate 100 Resp.queryError

/-- Witness for claim C5: on a script of 100 failing status queries the
loop consumes at most (in fact exactly) 100 iterations and resolves. -/
theorem poll_iteration_ceiling_witness :
    (runPoll scriptAllErrors (initPollState : PollState Nat)).2.2 ≤ maxPolls ∧
    (runPoll scriptAllErrors (initPollState : PollState Nat)).1 ≠ .outOfScript ∧
    ((runPoll scriptAllErrors (initPollState : PollState Nat)).1 = .pollTimeout ∨
      (runPoll scriptAllErrors (initPollState : PollState Nat)).1 = .backendTimeout →
      (runPoll scriptAllErrors (initPollState : PollState Nat)).2.2 = maxPolls) :=
  poll_iteration_ceiling scriptAllErrors (by decide)

/-- The script refuting claim C5 as stated: 99 polls that observe the job
running, then one "job not found" answer at the 100th poll. -/
def scriptRunning99ThenNotFound : List (Resp Nat) :=
  List.replicate 99 (Resp.snapshot { status := some "running" }) ++
    [Resp.snapshot { error := some "Job not found" }]

/-- Claim C5, counterexample: a run that exhausts all 100 iterations, never
reaches `complete` or `failed`, and still does not resolve with
`PollTimeout` — the 100th response is "job not found", so the grace check
(`polls >= 20`, submit.js line 308) exits with `JobNeverStarted` ("Backend
never started processing this job") instead of the timeout message the
claim requires. -/
theorem poll_ceiling_cex :
    (runPoll scriptRunning99ThenNotFound initPollState).1 = .jobNeverStarted ∧
    ¬ (runPoll scriptRunning99ThenNotFound initPollState).1 = .pollTimeout ∧
    (runPoll scriptRunning99ThenNotFound initPollState).2.2 = 100 := by
  decide

/-- Helper: `pollStep` resolves with `jobNeverStarted` exactly when the
response reports "Job not found" and this is at least the 20th
iteration. -/
theorem pollStep_jns_iff {M : Type} (s : PollState M) (r : Resp M) :
    (pollStep s r).1 = some .jobNeverStarted ↔
      isNotFound r = true ∧ 19 ≤ s.polls := by
  cases r with
  | queryError =>
    constructor
    · intro h
      simp only [pollStep] at h
      split at h <;> simp_all
    · rintro ⟨h, _⟩
      simp [isNotFound] at h
  | snapshot j =>
    by_cases hnf : j.error = some "Job not found"
    · by_cases h20 : 20 ≤ s.polls + 1
      · simp [pollStep, hnf, h20, isNotFound]
        omega
      · simp [pollStep, hnf, h20, isNotFound]
        omega
    · by_cases hf : j.status = some "failed"
      · simp [pollStep, hnf, hf, isNotFound]
      · by_cases hc : j.status = some "complete"
        · simp [pollStep, hnf, hf, hc, isNotFound]
        · by_cases hm : maxPolls ≤ s.polls + 1
          · simp [pollStep, hnf, hf, hc, hm, procMatches, isNotFound]
          · simp [pollStep, hnf, hf, hc, hm, procMatches, isNotFound]

/-- Helper: whenever a run resolves with `jobNeverStarted`, the response it
consumed last reported "Job not found" and it was at least the 20th
iteration overall. -/
theorem runPoll_jns_sound {M : Type} :
    ∀ (rs : List (Resp M)) (s : PollState M),
    (runPoll rs s).1 = .jobNeverStarted →
    ∃ k r, (runPoll rs s).2.2 = k + 1 ∧ rs[k]? = some r ∧
      isNotFound r = true ∧ 20 ≤ s.polls + k + 1 := by
  intro rs
  induction rs with
  | nil => intro s h; simp [runPoll] at h
  | cons r rs ih =>
    intro s h
    cases hstep : pollStep s r with
    | mk oo s1 =>
      cases oo with
      | some o =>
        simp [runPoll, hstep] at h
        subst h
        obtain ⟨hnf, h19⟩ := (pollStep_jns_iff s r).mp (by rw [hstep])
        exact ⟨0, r, by simp [runPoll, hstep], by simp, hnf, by omega⟩
      | none =>
        have hp : s1.polls = s.polls + 1 := by
          have h0 := pollStep_polls s r
          rw [hstep] at h0
          exact h0
        simp [runPoll, hstep] at h
        obtain ⟨k, r', hn, hget, hnf, hk⟩ := ih s1 h
        refine ⟨k + 1, r', ?_, ?_, hnf, by omega⟩
        · simp [runPoll, hstep, hn]
        · simpa using hget

/-- Claim C4, amended: a "job not found" status below the 20th iteration
keeps the loop polling, and the loop fails with `JobNeverStarted` exactly
when a poll reports "job not found" at iteration 20 or later — regardless
of whether the job had been observed before (the source keys the grace
check on the total `polls` counter, not on consecutive or first-time
not-found answers, submit.js lines 307-314).  Stated as: (a) a single
step exits with `JobNeverStarted` iff its response is "job not found" and
at least 19 iterations precede it; (b) every `JobNeverStarted` run ends on
a "job not found" response at overall iteration ≥ 20. -/
theorem jobNeverStarted_grace {M : Type} :
    (∀ (s : PollState M) (r : Resp M),
      (pollStep s r).1 = some .jobNeverStarted ↔
        isNotFound r = true ∧ 19 ≤ s.polls) ∧
    (∀ (rs : List (Resp M)) (s : PollState M),
      (runPoll rs s).1 = .jobNeverStarted →
      ∃ k r, (runPoll rs s).2.2 = k + 1 ∧ rs[k]? = some r ∧
        isNotFound r = true ∧ 20 ≤ s.polls + k + 1) :=
  ⟨pollStep_jns_iff, runPoll_jns_sound⟩

/-- A script of 20 consecutive "job not found" answers. -/
def scriptNotFound20 : List (Resp Nat) :=
  List.replicate 20 (Resp.snapshot { error := some "Job not found" })

/-- Witness for claim C4: 20 consecutive "job not found" polls make the
loop resolve with `JobNeverStarted` at its 20th iteration. -/
theorem jobNeverStarted_grace_witness :
    ∃ k r, (runPoll scriptNotFound20 (initPollState : PollState Nat)).2.2 =
        k + 1 ∧ scriptNotFound20[k]? = some r ∧
      isNotFound r = true ∧
      20 ≤ (initPollState : PollState Nat).polls + k + 1 :=
  jobNeverStarted_grace.2 scriptNotFound20 initPollState (by decide)

/-- The script refuting claim C4 as stated: the job is observed running
for 20 polls, then the 21st poll reports "job not found". -/
def scriptFoundThenNotFound : List (Resp Nat) :=
  List.replicate 20 (Resp.snapshot { status := some "running" }) ++
    [Resp.snapshot { error := some "Job not found" }]

/-- Claim C4, counterexample: after the job has been observed (status
"running") for 20 polls, a single "job not found" answer still makes the
loop fail with `JobNeverStarted` — the code has no memory of the job ever
having been found, contradicting the claim that after observing any other
status the loop can no longer fail with `JobNeverStarted`. -/
theorem jobNeverStarted_after_found_cex :
    (runPoll scriptFoundThenNotFound initPollState).1 = .jobNeverStarted := by
  decide

/-- Claim C10: the loop treats exactly the strings "failed" and "complete"
as terminal — (a) one poll step on any snapshot whose error is not "Job
not found" and whose status is neither "failed" nor "complete" keeps the
loop polling (resolves nothing) while below the ceiling; (b) concretely,
the `{status: "completed"}` snapshot that `getStatus` fabricates whenever
no Cloudflare Workers base URL is configured (api.js line 86) is *not*
terminal, so a run fed only that snapshot polls the full 100 iterations
and ends in `PollTimeout` rather than `Complete`. -/
theorem nonterminal_status_keeps_polling :
    (∀ (M : Type) (s : PollState M) (j : Job M),
      j.error ≠ some "Job not found" → j.status ≠ some "failed" →
      j.status ≠ some "complete" → s.polls + 1 < maxPolls →
      (pollStep s (.snapshot j)).1 = none) ∧
    ((runPoll (List.replicate 100 (Resp.snapshot (statusNoCF : Job Nat)))
        initPollState).1 = .pollTimeout ∧
      (runPoll (List.replicate 100 (Resp.snapshot (statusNoCF : Job Nat)))
        initPollState).2.2 = 100) := by
  constructor
  · intro M s j hnf hf hc h
    have hm : ¬ (maxPolls ≤ s.polls + 1) := by omega
    simp [pollStep, hnf, hf, hc, hm, procMatches]
  · constructor <;> decide

/-- Witness for claim C10: the no-Cloudflare `{status: "completed"}`
snapshot itself is a non-terminal status on which the first poll keeps
looping. -/
theorem nonterminal_status_keeps_polling_witness :
    (pollStep (initPollState : PollState Nat)
      (.snapshot (statusNoCF : Job Nat))).1 = none :=
  nonterminal_status_keeps_polling.1 Nat initPollState statusNoCF
    (by decide) (by decide) (by decide) (by decide)

/-- Prefix relation on lists, written via `take`: `pfxOf a b` holds when
`a` is an initial segment of `b`.  Used to state that the remote job's
match history only ever grows by appending. -/
def pfxOf {M : Type} (a b : List M) : Prop := b.take a.length = a

/-- Helper: the prefix relation is reflexive. -/
theorem pfxOf_refl {M : Type} (a : List M) : pfxOf a a := by
  simp [pfxOf]

/-- Helper: a prefix is no longer than the whole. -/
theorem pfxOf_length_le {M : Type} {a b : List M} (h : pfxOf a b) :
    a.length ≤ b.length := by
  have := congrArg List.length h
  simp [List.length_take] at this
  omega

/-- Helper: the prefix relation is transitive. -/
theorem pfxOf_trans {M : Type} {a b c : List M} (h1 : pfxOf a b)
    (h2 : pfxOf b c) : pfxOf a c := by
  have hle := pfxOf_length_le h1
  calc c.take a.length = (c.take b.length).take a.length := by
        rw [List.take_take, Nat.min_eq_left hle]
    _ = b.take a.length := by rw [h2]
    _ = a := h1

/-- Helper: a prefix plus the dropped remainder rebuilds the whole list. -/
theorem pfxOf_append_drop {M : Type} {a b : List M} (h : pfxOf a b) :
    a ++ b.drop a.length = b := by
  nth_rewrite 1 [← h]
  exact List.take_append_drop _ _

/-- The job's match list as observed by one poll iteration, when that
iteration reaches the match-emission code: `none` for a query error, a
"Job not found" answer, or a "failed" status (those branches return or
exit before `job.matches` is read), otherwise `job.matches || []`. -/
def obsMatches {M : Type} : Resp M → Option (List M)
  | .queryError => none
  | .snapshot j =>
    if j.error = some "Job not found" ∨ j.status = some "failed" then none
    else some (j.matchList.getD [])

/-- The append-only assumption on the remote job (spec §3: the client
"only reads monotonically growing match history"): starting from the
last list already seen, every observed match list extends the previous
observed one by appending. -/
def appendOnlyFrom {M : Type} (cur : List M) : List (Resp M) → Prop
  | [] => True
  | r :: rs =>
    match obsMatches r with
    | none => appendOnlyFrom cur rs
    | some ms => pfxOf cur ms ∧ appendOnlyFrom ms rs

/-- Helper: an iteration that never reaches the match-emission code leaves
`emitted` and `lastMatchCount` untouched. -/
theorem pollStep_state_none {M : Type} (s : PollState M) (r : Resp M)
    (h : obsMatches r = none) :
    (pollStep s r).2.emitted = s.emitted ∧
    (pollStep s r).2.lastMatchCount = s.lastMatchCount := by
  cases r with
  | queryError =>
    constructor <;> (simp only [pollStep]; split <;> rfl)
  | snapshot j =>
    by_cases hnf : j.error = some "Job not found"
    · constructor <;> (simp only [pollStep]; rw [if_pos hnf]; split <;> rfl)
    · by_cases hf : j.status = some "failed"
      · constructor <;> (simp only [pollStep]; rw [if_neg hnf, if_pos hf])
      · exfalso
        simp [obsMatches, hnf, hf] at h

/-- Helper: an iteration that reaches the match-emission code appends
exactly the new entries `ms.drop lastMatchCount`, in order, and advances
the counter by exactly the number emitted — this holds whether the
iteration then continues, completes, or times out. -/
theorem pollStep_state_some {M : Type} (s : PollState M) (r : Resp M)
    (ms : List M) (h : obsMatches r = some ms) :
    (pollStep s r).2.emitted = s.emitted ++ ms.drop s.lastMatchCount ∧
    (pollStep s r).2.lastMatchCount =
      s.lastMatchCount + (ms.drop s.lastMatchCount).length := by
  cases r with
  | queryError => simp [obsMatches] at h
  | snapshot j =>
    by_cases hnf : j.error = some "Job not found"
    · exfalso; simp [obsMatches, hnf] at h
    · by_cases hf : j.status = some "failed"
      · exfalso; simp [obsMatches, hnf, hf] at h
      · have hms : ms = j.matchList.getD [] := by
          simp [obsMatches, hnf, hf] at h
          exact h.symm
        subst hms
        constructor <;>
          (simp only [pollStep]; rw [if_neg hnf, if_neg hf];
            split <;> first
              | rfl
              | (split <;> rfl))

/-- Helper: `lastMatchCount` never decreases across any poll iteration. -/
theorem pollStep_lmc_mono {M : Type} (s : PollState M) (r : Resp M) :
    s.lastMatchCount ≤ (pollStep s r).2.lastMatchCount := by
  cases hobs : obsMatches r with
  | none => exact le_of_eq (pollStep_state_none s r hobs).2.symm
  | some ms => rw [(pollStep_state_some s r ms hobs).2]; omega

/-- Helper (run-level emission invariant): if the loop state starts
consistent with an already-emitted prefix `cur` of the job's match history
and the observed match lists grow append-only, then after the loop runs,
the emitted log literally equals some observed match list `fin` (or is
still `cur`), `cur` is a prefix of it, and `lastMatchCount` equals its
length.  In particular every entry was emitted exactly once, in order,
and the counter never exceeds the observed history's length. -/
theorem runPoll_emission_inv {M : Type} :
    ∀ (rs : List (Resp M)) (cur : List M) (s : PollState M),
    s.emitted = cur → s.lastMatchCount = cur.length → appendOnlyFrom cur rs →
    ∃ fin, pfxOf cur fin ∧
      (fin = cur ∨ ∃ r, r ∈ rs ∧ obsMatches r = some fin) ∧
      (runPoll rs s).2.1.emitted = fin ∧
      (runPoll rs s).2.1.lastMatchCount = fin.length := by
  intro rs
  induction rs with
  | nil =>
    intro cur s h1 h2 _
    refine ⟨cur, pfxOf_refl cur, Or.inl rfl, ?_, ?_⟩
    · simpa [runPoll] using h1
    · simpa [runPoll] using h2
  | cons r rs ih =>
    intro cur s h1 h2 hchain
    cases hobs : obsMatches r with
    | none =>
      obtain ⟨he, hl⟩ := pollStep_state_none s r hobs
      have hchain' : appendOnlyFrom cur rs := by
        have hc := hchain
        unfold appendOnlyFrom at hc
        rw [hobs] at hc
        exact hc
      cases hstep : pollStep s r with
      | mk oo s1 =>
        have he' : s1.emitted = s.emitted := by rw [hstep] at he; exact he
        have hl' : s1.lastMatchCount = s.lastMatchCount := by
          rw [hstep] at hl; exact hl
        cases oo with
        | some o =>
          refine ⟨cur, pfxOf_refl cur, Or.inl rfl, ?_, ?_⟩
          · simp [runPoll, hstep, he', h1]
          · simp [runPoll, hstep, hl', h2]
        | none =>
          obtain ⟨fin, hpfx, hor, hfe, hfl⟩ :=
            ih cur s1 (he'.trans h1) (hl'.trans h2) hchain'
          refine ⟨fin, hpfx, ?_, ?_, ?_⟩
          · rcases hor with h | ⟨r', hmem, hr'⟩
            · exact Or.inl h
            · exact Or.inr ⟨r', List.mem_cons_of_mem r hmem, hr'⟩
          · simp [runPoll, hstep, hfe]
          · simp [runPoll, hstep, hfl]
    | some ms =>
      obtain ⟨he, hl⟩ := pollStep_state_some s r ms hobs
      have hchain2 := hchain
      unfold appendOnlyFrom at hchain2
      rw [hobs] at hchain2
      obtain ⟨hpcm, hchain'⟩ := hchain2
      cases hstep : pollStep s r with
      | mk oo s1 =>
        have he' : s1.emitted = s.emitted ++ ms.drop s.lastMatchCount := by
          rw [hstep] at he; exact he
        have hl' : s1.lastMatchCount =
            s.lastMatchCount + (ms.drop s.lastMatchCount).length := by
          rw [hstep] at hl; exact hl
        have hem : s1.emitted = ms := by
          rw [he', h1, h2]
          exact pfxOf_append_drop hpcm
        have hlm : s1.lastMatchCount = ms.length := by
          rw [hl', h2]
          have hle := pfxOf_length_le hpcm
          simp [List.length_drop]
          omega
        cases oo with
        | some o =>
          refine ⟨ms, hpcm, Or.inr ⟨r, List.mem_cons_self r rs, hobs⟩, ?_, ?_⟩
          · simp [runPoll, hstep, hem]
          · simp [runPoll, hstep, hlm]
        | none =>
          obtain ⟨fin, hpfx, hor, hfe, hfl⟩ := ih ms s1 hem hlm hchain'
          refine ⟨fin, pfxOf_trans hpcm hpfx, ?_, ?_, ?_⟩
          · rcases hor with h | ⟨r', hmem, hr'⟩
            · exact Or.inr ⟨r, List.mem_cons_self r rs, by rw [hobs, h]⟩
            · exact Or.inr ⟨r', List.mem_cons_of_mem r hmem, hr'⟩
          · simp [runPoll, hstep, hfe]
          · simp [runPoll, hstep, hfl]

/-- Claim C3: the match-emission bookkeeping of the poll loop.
(a) `lastMatchCount` never decreases across any iteration;
(b) an iteration that observes the match history with `k` new entries
emits exactly those entries, in order, within that one iteration and
advances the counter by exactly `k` (`matches.slice(lastMatchCount)`,
submit.js lines 324-334);
(c) run-level, under the append-only match history the client is
promised (spec §3), the emitted log always equals an observed match
list verbatim — so every entry below `lastMatchCount` was emitted exactly
once and in order — and `lastMatchCount` equals that observed history's
length, hence never exceeds it. -/
theorem match_emission_invariant {M : Type} :
    (∀ (s : PollState M) (r : Resp M),
      s.lastMatchCount ≤ (pollStep s r).2.lastMatchCount) ∧
    (∀ (s : PollState M) (r : Resp M) (ms : List M), obsMatches r = some ms →
      (pollStep s r).2.emitted = s.emitted ++ ms.drop s.lastMatchCount ∧
      (pollStep s r).2.lastMatchCount =
        s.lastMatchCount + (ms.drop s.lastMatchCount).length) ∧
    (∀ (rs : List (Resp M)), appendOnlyFrom ([] : List M) rs →
      ∃ fin, (fin = [] ∨ ∃ r, r ∈ rs ∧ obsMatches r = some fin) ∧
        (runPoll rs (initPollState : PollState M)).2.1.emitted = fin ∧
        (runPoll rs (initPollState : PollState M)).2.1.lastMatchCount =
          fin.length) :=
  ⟨pollStep_lmc_mono, pollStep_state_some, fun rs hchain => by
    obtain ⟨fin, _, hor, hfe, hfl⟩ :=
      runPoll_emission_inv rs [] initPollState rfl rfl hchain
    exact ⟨fin, hor, hfe, hfl⟩⟩

/-- A script where one poll reveals one match and the next poll reveals
two more at once before completing. -/
def scriptGrowingMatches : List (Resp Nat) :=
  [Resp.snapshot { status := some "running", matchList := some [1] },
   Resp.snapshot { status := some "complete", matchList := some [1, 2, 3] }]

/-- Witness for claim C3: on a run where the second poll reveals two new
entries at once, the emitted log ends up exactly equal to an observed
match history and the counter equals its length. -/
theorem match_emission_invariant_witness :
    ∃ fin, (fin = [] ∨ ∃ r, r ∈ scriptGrowingMatches ∧
        obsMatches r = some fin) ∧
      (runPoll scriptGrowingMatches (initPollState : PollState Nat)).2.1.emitted
        = fin ∧
      (runPoll scriptGrowingMatches
          (initPollState : PollState Nat)).2.1.lastMatchCount = fin.length :=
  match_emission_invariant.2.2 scriptGrowingMatches ⟨rfl, rfl, trivial⟩

/-- The parts of the response object that the phase-1 handling of
`submit` textually reads (submit.js lines 247-280): the HTTP status code,
`response.data.error` (absent = `none`), `response.data` itself when the
body was not valid JSON and stayed a raw string, the `retry-after` header
parsed as seconds (`none` when the header is absent or empty, i.e. falsy),
and `response.data.job_id`.

Caution on reachability: `submit` reads `response.headers?.["retry-after"]`,
but the response it gets comes from `apiRequest`, which resolves only
`{status, data}` and never a `headers` field (api.js lines 44-53) — see
`ApiResponse` and `submitResponseOfApi` below.  So in every run of the
program `retryAfter` is `none`; the field exists here only because the
source expression reads it. -/
structure SubmitResponse where
  status : Nat
  dataError : Option String := none
  dataRaw : Option String := none
  retryAfter : Option Nat := none
  jobId : Option String := none
  deriving DecidableEq

/-- What the submission call does next after inspecting the response:
print an error and exit, display a synchronous result (no `job_id`,
the old-backend fallback of line 277), or enter the poll loop with the
returned job id. -/
inductive SubmitNext where
  | exitWithError (msg : String)
  | syncDisplay
  | pollLoop (jobId : String)
  deriving DecidableEq

/-- JavaScript truthiness of `response.data.error` (a missing or empty
string is falsy). -/
def errTruthy : Option String → Bool
  | some e => e != ""
  | none => false

/-- The user-facing rate-limit message of submit.js lines 254-255:
`Math.ceil(parseInt(retryAfter, 10) / 60)` minutes, with a plural "s"
exactly when the estimate is not 1. -/
def rateLimitMsg (t : Nat) : String :=
  let mins := (t + 59) / 60
  "Rate limited — retry in " ++ toString mins ++ " minute" ++
    (if mins != 1 then "s" else "")

/-- The default error message of submit.js line 251:
`response.data?.error || (typeof response.data === "string" ?
response.data : HTTP <status>)`. -/
def baseErrMsg (r : SubmitResponse) : String :=
  let fallback := match r.dataRaw with
    | some s => s
    | none => "HTTP " ++ toString r.status
  match r.dataError with
  | some e => if e != "" then e else fallback
  | none => fallback

/-- Phase-1 response handling of `submit` (submit.js lines 250-280):
an HTTP status ≥ 400 or a truthy `data.error` prints a message — replaced
by the rate-limit wait estimate when the status is 429 and a `retry-after`
header is present — and exits without ever polling; otherwise a missing
`job_id` falls back to displaying a synchronous result, and a present
`job_id` enters the poll loop.  The wait-estimate replacement branch is
translated because it is in the source, but no response the program can
produce reaches it (see `submitResponseOfApi`). -/
def submitDecision (r : SubmitResponse) : SubmitNext :=
  if 400 ≤ r.status ∨ errTruthy r.dataError then
    let msg := match r.retryAfter with
      | some t => if r.status = 429 then rateLimitMsg t else baseErrMsg r
      | none => baseErrMsg r
    .exitWithError msg
  else
    match r.jobId with
    | some j => .pollLoop j
    | none => .syncDisplay

/-- The value `apiRequest` resolves with (api.js lines 44-53):
`{ status: res.statusCode, data }` and nothing else — the resolved object
has no `headers` field, so the response headers the server sent (such as
`Retry-After`) are dropped.  (The `headers` at api.js line 39 are the
*request* headers.)  The body is summarized by the fields `submit` reads:
`data.error`, the raw string body when JSON parsing failed, and
`data.job_id`. -/
structure ApiResponse where
  status : Nat
  dataError : Option String := none
  dataRaw : Option String := none
  jobId : Option String := none
  deriving DecidableEq

/-- An `apiRequest` result as `submit` sees it: since the resolved object
carries no `headers` key, `response.headers?.["retry-after"]` evaluates
to `undefined`, so `retryAfter` is `none` for every response the program
can actually produce — whatever `Retry-After` header the server sent. -/
def submitResponseOfApi (a : ApiResponse) : SubmitResponse :=
  { status := a.status, dataError := a.dataError, dataRaw := a.dataRaw,
    retryAfter := none, jobId := a.jobId }

/-- Recognizes the wait-estimate messages: every `rateLimitMsg t` begins
with the 12 characters "Rate limited", and no generic `baseErrMsg` of the
forms exercised below does. -/
def isRateLimitMsg (m : String) : Bool := m.take 12 == "Rate limited"

/-- Claim C9, refuted (code bug): `apiRequest` resolves only
`{status, data}` and drops `res.headers`, so in `submit` the expression
`response.headers?.["retry-after"]` (submit.js line 252) is always
`undefined` and the wait-estimate branch (lines 253-255) is dead code —
as are the x-ratelimit displays of lines 262-272, which shows the branch
was meant to work.  Evaluating the code at the failing input: a 429
answer — whatever `Retry-After` header the server sent — reaches `submit`
with `retryAfter` absent, and the call exits with the generic "HTTP 429"
message, which is not a wait estimate (the last conjunct checks the
recognizer does accept a genuine `rateLimitMsg`).  The "never enters the
poll loop" half of the claim does hold: the decision is an error exit. -/
theorem rate_limit_estimate_unreachable :
    (∀ (a : ApiResponse), (submitResponseOfApi a).retryAfter = none) ∧
    submitDecision (submitResponseOfApi ⟨429, none, none, none⟩) =
      .exitWithError "HTTP 429" ∧
    isRateLimitMsg "HTTP 429" = false ∧
    isRateLimitMsg (rateLimitMsg 90) = true :=
  ⟨fun _ => rfl, by decide, by decide, by decide⟩

/-- How one `startServer` launch (local-runner.js lines 10-40) turns out:
the child prints the readiness marker "Snake server on port" on stdout
(`ready`), prints something on stderr before becoming ready (`stderrFail`,
which rejects with "Server failed: ..." *without* killing the child — only
the still-pending 5-second timer may later kill it, and only while the
parent process is still alive), or stays silent until the 5-second timer
kills it and rejects with "Server start timed out" (`timedOut`). -/
inductive StartOutcome where
  | ready
  | stderrFail (msg : String)
  | timedOut
  deriving DecidableEq

/-- How the engine (`battlesnake play`) process behaves once spawned:
it closes with an exit code, an output file (already split into parsed
lines, `none` when the file does not exist) and captured stderr text, or
it hangs until the 30-second timer kills it (local-runner.js lines
95-107). -/
inductive EngineOutcome where
  | closes (code : Int) (output : Option (List (Option JsVal)))
      (stderrText : String)
  | hangs

/-- The faults `runLocalGame` can surface: the two `startServer`
rejections, "Game failed: <stderr>" (non-zero exit with no output file),
"Game timed out", and the uncaught exception thrown by `parseResult` on a
malformed summary line inside the `close` event handler (which never
reaches the promise, so it escapes the `try`/`finally`). -/
inductive RunFault where
  | serverFailed (msg : String)
  | serverStartTimedOut
  | gameFailed (stderrText : String)
  | gameTimedOut
  | uncaughtParse (msg : String)

/-- The observable effects of one `runLocalGame` invocation: which child
processes were spawned, whether the engine was ever started, which child
processes the runner terminated, whether the per-run temporary directory
was removed, how many times the `finally` teardown block ran, and the
returned value or surfaced fault. -/
structure RunTrace where
  userSpawned : Bool
  oppSpawned : Bool
  engineStarted : Bool
  userTerminated : Bool
  oppTerminated : Bool
  tmpDirRemoved : Bool
  teardownRuns : Nat
  result : Except RunFault ParsedResult

/-- The rejection produced by a failed `startServer` launch. -/
def startFault : StartOutcome → Option RunFault
  | .ready => none
  | .stderrFail m => some (.serverFailed m)
  | .timedOut => some .serverStartTimedOut

/-- Whether `startServer` itself terminates its child before rejecting:
only the timeout branch calls `proc.kill()` (line 35); the stderr branch
rejects with the process still running. -/
def killedByStartServer : StartOutcome → Bool
  | .timedOut => true
  | _ => false

/-- Shallow embedding of `runLocalGame` (local-runner.js lines 42-119),
parameterized by the outcome of each concurrent `startServer` launch and,
when both become ready, by the engine process's behaviour.

Control flow from the source: both servers are spawned; `await
Promise.all` either resolves with both processes — only then does the
destructuring assignment `[userProc, oppProc] = ...` (line 77) bind them —
or rejects with the first failure, leaving both variables unset so that
the `finally` block (lines 111-118) kills nothing; in every case the
`finally` still removes the temporary directory.  When both are ready the
engine runs; on its `close`, a missing output file with non-zero exit is
"Game failed", otherwise `parseResult` runs — and if `parseResult` throws
(malformed summary line), the exception escapes the event handler, so the
promise never settles and the `finally` teardown never runs at all.  When
both launches fail the rejection that surfaces is the one losing the
race; the embedding picks the user's fault first and the theorems below
only rely on configurations where the choice is forced (at most one
distinct failure kind). -/
def runLocalGame (userStart oppStart : StartOutcome)
    (engine : EngineOutcome) : RunTrace :=
  if userStart = .ready ∧ oppStart = .ready then
    match engine with
    | .hangs =>
      { userSpawned := true, oppSpawned := true, engineStarted := true,
        userTerminated := true, oppTerminated := true,
        tmpDirRemoved := true, teardownRuns := 1,
        result := .error .gameTimedOut }
    | .closes code output stderrText =>
      if code ≠ 0 ∧ output.isNone then
        { userSpawned := true, oppSpawned := true, engineStarted := true,
          userTerminated := true, oppTerminated := true,
          tmpDirRemoved := true, teardownRuns := 1,
          result := .error (.gameFailed stderrText) }
      else
        match parseResult output.isSome (output.getD []) with
        | .ok r =>
          { userSpawned := true, oppSpawned := true, engineStarted := true,
            userTerminated := true, oppTerminated := true,
            tmpDirRemoved := true, teardownRuns := 1, result := .ok r }
        | .error m =>
          { userSpawned := true, oppSpawned := true, engineStarted := true,
            userTerminated := false, oppTerminated := false,
            tmpDirRemoved := false, teardownRuns := 0,
            result := .error (.uncaughtParse m) }
  else
    { userSpawned := true, oppSpawned := true, engineStarted := false,
      userTerminated := killedByStartServer userStart,
      oppTerminated := killedByStartServer oppStart,
      tmpDirRemoved := true, teardownRuns := 1,
      result := .error ((startFault userStart).getD
        ((startFault oppStart).getD .serverStartTimedOut)) }

/-- Claim C1, refuted (code bug): on the exit path the claim itself calls
out — the user's server becomes ready while the opponent's times out
during startup — the ready user server process is never terminated.
`Promise.all` rejects, so the destructuring assignment binding
`userProc`/`oppProc` never executes and the `finally` block's guarded
kills are skipped; only the timed-out opponent was killed, by
`startServer`'s own timer.  The temporary directory is still removed and
the teardown block still runs exactly once on this path, but "both
contestant server processes are terminated" fails. -/
theorem runLocalGame_leaks_ready_server :
    (runLocalGame .ready .timedOut .hangs).userTerminated = false ∧
    (runLocalGame .ready .timedOut .hangs).oppTerminated = true ∧
    (runLocalGame .ready .timedOut .hangs).result =
      .error .serverStartTimedOut ∧
    (runLocalGame .ready .timedOut .hangs).tmpDirRemoved = true ∧
    (runLocalGame .ready .timedOut .hangs).teardownRuns = 1 :=
  ⟨rfl, rfl, rfl, rfl, rfl⟩

/-- Claim C8: (a) when a contestant server times out during startup and
the other side either becomes ready or also times out (so the surfaced
rejection is unambiguously the timeout), `runLocalGame` fails with the
start-timeout fault and the engine process is never started; (b) more
generally, the engine is never started unless both servers become
ready. -/
theorem start_timeout_no_engine :
    (∀ (u o : StartOutcome) (e : EngineOutcome),
      (u = .timedOut ∨ o = .timedOut) →
      (u = .ready ∨ u = .timedOut) → (o = .ready ∨ o = .timedOut) →
      (runLocalGame u o e).result = .error .serverStartTimedOut ∧
      (runLocalGame u o e).engineStarted = false) ∧
    (∀ (u o : StartOutcome) (e : EngineOutcome),
      ¬ (u = .ready ∧ o = .ready) →
      (runLocalGame u o e).engineStarted = false) := by
  constructor
  · intro u o e ht hu ho
    rcases hu with hu | hu <;> rcases ho with ho | ho <;> subst hu <;> subst ho
    · rcases ht with ht | ht <;> simp at ht
    · exact ⟨rfl, rfl⟩
    · exact ⟨rfl, rfl⟩
    · exact ⟨rfl, rfl⟩
  · intro u o e h
    simp [runLocalGame, h]

/-- Witness for claim C8: user server ready, opponent server start times
out — the match fails with the start timeout and no engine ever runs. -/
theorem start_timeout_no_engine_witness :
    (runLocalGame .ready .timedOut .hangs).result =
      .error .serverStartTimedOut ∧
    (runLocalGame .ready .timedOut .hangs).engineStarted = false :=
  start_timeout_no_engine.1 .ready .timedOut .hangs (Or.inr rfl)
    (Or.inl rfl) (Or.inr rfl)
